import Mathlib

/-!
Verification of the `traefik-block-regex-urls` middleware.

The repository is a Traefik plugin with three variants of the same package:

* `traefik_block_regex_urls.go` (namespace `V1` below): regex rules plus an
  `allowLocalRequests` private-IP exemption driven by the `X-Forwarded-For`
  and `X-Real-IP` headers;
* the substring variant (namespace `VSub`): `matchStrings` tested with
  `strings.Contains`, then regex rules;
* the exact-match variant (namespace `VExact`): `exactMatch` tested with
  `slices.Contains`, then regex rules.

Compiled Go regexes are modelled abstractly as predicates `String → Bool`
(`regexp.MatchString` on the composed URL), and `regexp.Compile` as a
parameter `compile : String → Option (String → Bool)` of `New`.  The IP
parsing and classification functions from the Go standard library (`net`,
`net/netip`) that the code calls are translated directly in the `Net`
namespace.  `ServeHTTP`'s observable behaviour is the `Decision` it takes:
`Forwarded` means the next handler is invoked exactly once with the
unmodified request and nothing is written to the response; `Blocked c`
means `WriteHeader c` is called and the handler returns without invoking
the next handler.
-/

namespace Net

/-- A Go `net.IP`: a byte slice (each entry < 256).  `net.ParseIP` always
yields the 16-byte `As16` form; the IPv4 CIDR blocks of the plugin's table
carry 4-byte network numbers, exactly as `net.ParseCIDR` produces them. -/
abbrev IP := List Nat

/-- Model of Go `netip.parseIPv4Fields` (the state of the loop is the
current octet value, the number of digits seen in the current octet, and
the completed fields).  Rejects leading zeros, octets above 255, empty
fields, and anything but digits and dots; requires exactly four fields. -/
def parseIPv4Fields : List Char → Nat → Nat → List Nat → Option (List Nat)
  | [], val, _, fields =>
    if fields.length < 3 then none
    else some (fields ++ [val])
  | c :: rest, val, digLen, fields =>
    if '0' ≤ c && c ≤ '9' then
      if digLen == 1 && val == 0 then none
      else
        let val' := val * 10 + (c.toNat - '0'.toNat)
        if val' > 255 then none
        else parseIPv4Fields rest val' (digLen + 1) fields
    else if c == '.' then
      if digLen == 0 || rest.isEmpty then none
      else if fields.length == 3 then none
      else parseIPv4Fields rest 0 0 (fields ++ [val])
    else none

/-- Model of Go `netip.parseIPv4`: the four octets of a dotted quad. -/
def parseIPv4 (s : List Char) : Option (List Nat) :=
  parseIPv4Fields s 0 0 []

/-- Value of a hexadecimal digit, as accepted by `netip.parseIPv6`
(written over code points: 0x30–0x39 are the digits, 0x61–0x66 the
lowercase and 0x41–0x46 the uppercase hex letters). -/
def hexDigitVal (c : Char) : Option Nat :=
  let n := c.toNat
  if 0x30 ≤ n && n ≤ 0x39 then some (n - 0x30)
  else if 0x61 ≤ n && n ≤ 0x66 then some (n - 0x61 + 10)
  else if 0x41 ≤ n && n ≤ 0x46 then some (n - 0x41 + 10)
  else none

/-- The inner hex-number scan of `netip.parseIPv6`: consume leading hex
digits, accumulating the value; fail (whole parse) when the accumulator
exceeds `0xFFFF`.  Returns the value, the number of digits consumed, and
the unconsumed remainder. -/
def hexChunk : List Char → Nat → Nat → Option (Nat × Nat × List Char)
  | [], acc, off => some (acc, off, [])
  | c :: rest, acc, off =>
    match hexDigitVal c with
    | none => some (acc, off, c :: rest)
    | some d =>
      let acc' := acc * 16 + d
      if acc' > 0xFFFF then none
      else hexChunk rest acc' (off + 1)

/-- The main loop of `netip.parseIPv6`.  State: remaining input, number of
bytes `i` already produced, position of a `::` ellipsis if one was seen,
and the bytes produced so far.  The Go loop runs while `i < 16` and each
iteration adds at least two bytes, so eight iterations of fuel always
suffice; the fuel-exhausted branch mirrors the ordinary loop exit. -/
def parseIPv6Loop : Nat → List Char → Nat → Option Nat → List Nat →
    Option (List Char × Nat × Option Nat × List Nat)
  | 0, s, i, ellipsis, ip => some (s, i, ellipsis, ip)
  | fuel + 1, s, i, ellipsis, ip =>
    if 16 ≤ i then some (s, i, ellipsis, ip)
    else
      match hexChunk s 0 0 with
      | none => none
      | some (acc, off, rest) =>
        if off == 0 then none
        else if rest.head? == some '.' then
          -- embedded trailing IPv4 address, parsed from the field start
          if ellipsis.isNone && i != 12 then none
          else if i + 4 > 16 then none
          else
            match parseIPv4 s with
            | some [a, b, c, d] => some ([], i + 4, ellipsis, ip ++ [a, b, c, d])
            | _ => none
        else
          let ip' := ip ++ [acc / 256, acc % 256]
          let i' := i + 2
          match rest with
          | [] => some ([], i', ellipsis, ip')
          | [':'] => none
          | ':' :: ':' :: rest2 =>
            match ellipsis with
            | some _ => none
            | none =>
              if rest2.isEmpty then some ([], i', some i', ip')
              else parseIPv6Loop fuel rest2 i' (some i') ip'
          | ':' :: rest2 => parseIPv6Loop fuel rest2 i' ellipsis ip'
          | _ => none

/-- Post-processing of `netip.parseIPv6`: the whole input must have been
consumed; a short address needs an ellipsis, which expands to the missing
zero bytes; a full 16-byte address must not also carry an ellipsis. -/
def parseIPv6Finish : Option (List Char × Nat × Option Nat × List Nat) → Option (List Nat)
  | none => none
  | some (s, i, ellipsis, ip) =>
    if !s.isEmpty then none
    else if i < 16 then
      match ellipsis with
      | none => none
      | some e => some (ip.take e ++ List.replicate (16 - i) 0 ++ ip.drop e)
    else
      match ellipsis with
      | some _ => none
      | none => some ip

/-- Model of `netip.parseIPv6` as consumed by `net.ParseIP`.  A `%` starts
a zone suffix: an empty zone is a parse error and `net.parseIP` rejects
any address carrying a non-empty zone, so every input containing `%`
yields no IP here. -/
def parseIPv6 (s : List Char) : Option (List Nat) :=
  if s.contains '%' then none
  else
    match s with
    | ':' :: ':' :: rest =>
      if rest.isEmpty then some (List.replicate 16 0)
      else parseIPv6Finish (parseIPv6Loop 8 rest 0 (some 0) [])
    | _ => parseIPv6Finish (parseIPv6Loop 8 s 0 none [])

/-- The dispatch scan of `netip.ParseAddr`: the first of `.`, `:`, `%`
decides the address family (`%` before either is an error). -/
def firstSpecial : List Char → Option Char
  | [] => none
  | c :: rest => if c == '.' || c == ':' || c == '%' then some c else firstSpecial rest

/-- The IPv4-in-IPv6 mapped form `::ffff:a.b.c.d`, i.e. `Addr.As16` of an
IPv4 address — the byte form `net.ParseIP` returns for dotted quads. -/
def v4InV6 (a b c d : Nat) : List Nat :=
  [0, 0, 0, 0, 0, 0, 0, 0, 0, 0, 0xff, 0xff, a, b, c, d]

/-- Model of `net.parseIP` (`netip.ParseAddr` followed by zone rejection
and `As16`): the 16-byte form of the parsed address, or `none`. -/
def parseAddr (s : List Char) : Option IP :=
  match firstSpecial s with
  | some '.' =>
    match parseIPv4 s with
    | some [a, b, c, d] => some (v4InV6 a b c d)
    | _ => none
  | some ':' => parseIPv6 s
  | _ => none

/-- Model of `net.IP.To4`: the 4-byte form of an IPv4 address, also when
presented in the 16-byte IPv4-in-IPv6 form; `none` for genuine IPv6. -/
def to4 (ip : IP) : Option (List Nat) :=
  match ip with
  | [a, b, c, d] => some [a, b, c, d]
  | [0, 0, 0, 0, 0, 0, 0, 0, 0, 0, 255, 255, a, b, c, d] => some [a, b, c, d]
  | _ => none

/-- Go `net.IPv6loopback` (`::1`). -/
def IPv6loopback : IP := List.replicate 15 0 ++ [1]

/-- Model of `net.IP.IsLoopback`. -/
def isLoopback (ip : IP) : Bool :=
  match to4 ip with
  | some (a :: _) => a == 127
  | some [] => false
  | none => ip == IPv6loopback

/-- Model of `net.IP.IsLinkLocalUnicast`. -/
def isLinkLocalUnicast (ip : IP) : Bool :=
  match to4 ip with
  | some (a :: b :: _) => a == 169 && b == 254
  | some _ => false
  | none =>
    match ip with
    | a :: b :: rest => rest.length == 14 && a == 0xfe && Nat.land b 0xc0 == 0x80
    | _ => false

/-- Model of `net.IP.IsLinkLocalMulticast`. -/
def isLinkLocalMulticast (ip : IP) : Bool :=
  match to4 ip with
  | some (a :: b :: c :: _) => a == 224 && b == 0 && c == 0
  | some _ => false
  | none =>
    match ip with
    | a :: b :: rest => rest.length == 14 && a == 0xff && Nat.land b 0x0f == 0x02
    | _ => false

/-- A Go `net.IPNet`: network number and mask of equal length. -/
structure IPNet where
  ip : List Nat
  mask : List Nat
deriving DecidableEq

/-- Bytewise masked comparison of `IPNet.Contains` (also enforcing the
length check `len(nn) == len(ip)`). -/
def maskedEq : List Nat → List Nat → List Nat → Bool
  | [], [], [] => true
  | n :: nn, m :: mm, b :: bb => Nat.land n m == Nat.land b m && maskedEq nn mm bb
  | _, _, _ => false

/-- Model of `net.IPNet.Contains`: normalize the queried address to its
4-byte form when it is IPv4, then compare under the mask; differing
address families (lengths) never match. -/
def IPNet.contains (n : IPNet) (ip : IP) : Bool :=
  let ip' := match to4 ip with
    | some x => x
    | none => ip
  maskedEq n.ip n.mask ip'

end Net

/-! ## Definitions shared by the three variants of the package -/

/-- The part of an `http.Request` the plugin reads: `request.Host`,
`request.URL.RequestURI()`, and the first value of each of the two
forwarding headers (`request.Header.Get` returns `""` for an absent
header, so an absent header is the empty string here). -/
structure Request where
  host : String
  requestURI : String
  xForwardedFor : String
  xRealIP : String
deriving DecidableEq

/-- The composed URL `fullUrl := request.Host + request.URL.RequestURI()`
that every variant's `ServeHTTP` builds first. -/
def fullUrlOf (request : Request) : String :=
  request.host ++ request.requestURI

/-- Observable outcome of one `ServeHTTP` call: `Forwarded` invokes the
next handler exactly once with the unmodified request and writes nothing;
`Blocked c` calls `WriteHeader c` and returns without invoking the next
handler. -/
inductive Decision where
  | Forwarded : Decision
  | Blocked : Int → Decision
deriving DecidableEq

/-- The repository's `ParseIP`: wraps `net.ParseIP`, returning an error
(`none` here) when the address does not parse. -/
def ParseIP (address : String) : Option Net.IP :=
  Net.parseAddr address.toList

/-- The repository's `InitializePrivateIPBlocks`: the fixed CIDR table,
written here as the `net.ParseCIDR` results of the eight hardcoded
strings (4-byte network/mask for IPv4 blocks, 16-byte for IPv6). -/
def InitializePrivateIPBlocks : List Net.IPNet :=
  [ ⟨[127, 0, 0, 0], [255, 0, 0, 0]⟩,                                  -- 127.0.0.0/8
    ⟨[10, 0, 0, 0], [255, 0, 0, 0]⟩,                                   -- 10.0.0.0/8
    ⟨[172, 16, 0, 0], [255, 240, 0, 0]⟩,                               -- 172.16.0.0/12
    ⟨[192, 168, 0, 0], [255, 255, 0, 0]⟩,                              -- 192.168.0.0/16
    ⟨[169, 254, 0, 0], [255, 255, 0, 0]⟩,                              -- 169.254.0.0/16
    ⟨List.replicate 15 0 ++ [1], List.replicate 16 255⟩,               -- ::1/128
    ⟨[0xfe, 0x80] ++ List.replicate 14 0, [255, 192] ++ List.replicate 14 0⟩, -- fe80::/10
    ⟨[0xfc] ++ List.replicate 15 0, [254] ++ List.replicate 15 0⟩ ]    -- fc00::/7

/-- The repository's `IsIpInList`: the loop over the blocks with early
return on the first containing block. -/
def IsIpInList (ip : Net.IP) (list : List Net.IPNet) : Bool :=
  list.any fun block => block.contains ip

/-- The repository's `IsPrivateIP`: loopback, link-local unicast or
link-local multicast, or membership in the hardcoded block table. -/
def IsPrivateIP (ip : Net.IP) (privateIPBlocks : List Net.IPNet) : Bool :=
  if Net.isLoopback ip || Net.isLinkLocalUnicast ip || Net.isLinkLocalMulticast ip then
    true
  else
    IsIpInList ip privateIPBlocks

/-- Field accumulation of `strings.FieldsFunc`: walk the characters,
collecting the current field (in reverse); a comma ends the current
field, which is emitted only when non-empty. -/
def fieldsFuncAux : List Char → List Char → List String
  | [], cur => if cur.isEmpty then [] else [String.mk cur.reverse]
  | c :: rest, cur =>
    if c == ',' then
      if cur.isEmpty then fieldsFuncAux rest []
      else String.mk cur.reverse :: fieldsFuncAux rest []
    else
      fieldsFuncAux rest (c :: cur)

/-- `strings.FieldsFunc(value, c == ',')`: the maximal comma-free
substrings, in order — empty fields are dropped, nothing is trimmed. -/
def fieldsFunc (s : String) : List String :=
  fieldsFuncAux s.toList []

/-- One of `CollectRemoteIP`'s two identical header loops: parse each
token in order, appending to the accumulated list; on the first token
that fails to parse, return the list collected so far together with the
error flag (Go's non-nil `error`). -/
def parseLoop : List String → List Net.IP → List Net.IP × Bool
  | [], ipList => (ipList, false)
  | value :: rest, ipList =>
    match ParseIP value with
    | none => (ipList, true)
    | some ipAddress => parseLoop rest (ipList ++ [ipAddress])

/-- The repository's `CollectRemoteIP`: split and parse `X-Forwarded-For`,
then (only if that loop finished without error) split and parse
`X-Real-IP` into the same list; the second component is whether a parse
error occurred (the Go function returns the so-far-collected list
alongside the error). -/
def CollectRemoteIP (request : Request) : List Net.IP × Bool :=
  match parseLoop (fieldsFunc request.xForwardedFor) [] with
  | (ipList, true) => (ipList, true)
  | (ipList, false) => parseLoop (fieldsFunc request.xRealIP) ipList

/-- The `isPrivateIp` accumulator loop of `ServeHTTP`:
`isPrivateIp = IsPrivateIP(ip) && isPrivateIp` starting from `true`, with
`break` as soon as it turns false. -/
def isPrivateIpLoop (blocks : List Net.IPNet) : List Net.IP → Bool
  | [] => true
  | ipAddress :: rest => IsPrivateIP ipAddress blocks && isPrivateIpLoop blocks rest

/-- The regex-compilation loop shared by every variant's `New`:
`regexp.Compile` (modelled by the `compile` parameter) applied to each
pattern in order, failing with the first pattern that does not compile. -/
def compileRegexps (compile : String → Option (String → Bool)) :
    List String → Except String (List (String → Bool))
  | [] => .ok []
  | regex :: rest =>
    match compile regex with
    | none => .error ("error compiling regex " ++ regex)
    | some compiledRegex =>
      match compileRegexps compile rest with
      | .error e => .error e
      | .ok regexps => .ok (compiledRegex :: regexps)

/-! ## Variant 1: `traefik_block_regex_urls.go` (regex rules, IP exemption) -/

namespace V1

/-- The `Config` struct of the primary variant. -/
structure Config where
  allowLocalRequests : Bool
  regex : List String
  silentStartUp : Bool
  statusCode : Int
deriving DecidableEq

/-- The `traefik_block_regex_urls` middleware struct of the primary
variant (the `next` handler and instance `name` are left to the
`Decision` semantics and logging respectively). -/
structure traefik_block_regex_urls where
  allowLocalRequests : Bool
  privateIPRanges : List Net.IPNet
  regexps : List (String → Bool)
  statusCode : Int

/-- The primary variant's `New`: reject an empty regex list, then compile
every pattern (failing on the first bad one), then build the instance. -/
def New (compile : String → Option (String → Bool)) (config : Config) :
    Except String traefik_block_regex_urls :=
  if config.regex.length == 0 then
    .error "the regex list is empty"
  else
    match compileRegexps compile config.regex with
    | .error e => .error e
    | .ok regexps =>
      .ok { allowLocalRequests := config.allowLocalRequests,
            privateIPRanges := InitializePrivateIPBlocks,
            regexps := regexps,
            statusCode := config.statusCode }

/-- The regex loop of the primary variant's `ServeHTTP`.  On a matching
regex: collect the remote IPs (the returned list is used whether or not
an error occurred), block immediately when `allowLocalRequests` is off,
otherwise block unless every collected address is private; a match that
survives the exemption falls through to the next regex. -/
def serveLoop (blockUrls : traefik_block_regex_urls) (request : Request)
    (fullUrl : String) : List (String → Bool) → Decision
  | [] => .Forwarded
  | regex :: rest =>
    if regex fullUrl then
      let ipAddresses := (CollectRemoteIP request).1
      if !blockUrls.allowLocalRequests then
        .Blocked blockUrls.statusCode
      else if !isPrivateIpLoop blockUrls.privateIPRanges ipAddresses then
        .Blocked blockUrls.statusCode
      else
        serveLoop blockUrls request fullUrl rest
    else
      serveLoop blockUrls request fullUrl rest

/-- The primary variant's `ServeHTTP`: compose the full URL, run the
regex loop, and forward when it falls through. -/
def ServeHTTP (blockUrls : traefik_block_regex_urls) (request : Request) : Decision :=
  serveLoop blockUrls request (fullUrlOf request) blockUrls.regexps

end V1

/-! ## Substring variant (`matchStrings`, `strings.Contains`) -/

/-- Go `strings.Contains s substr`. -/
def strContainsAux : List Char → List Char → Bool
  | [], sub => sub.isEmpty
  | c :: cs, sub => List.isPrefixOf sub (c :: cs) || strContainsAux cs sub

/-- Go `strings.Contains`: does `substr` occur inside `s`. -/
def strContains (s substr : String) : Bool :=
  strContainsAux s.toList substr.toList

namespace VSub

/-- The `Config` struct of the substring variant. -/
structure Config where
  regex : List String
  matchStrings : List String
  silentStartUp : Bool
  statusCode : Int
deriving DecidableEq

/-- The middleware struct of the substring variant. -/
structure traefik_block_regex_urls where
  regexps : List (String → Bool)
  matchStrings : List String
  statusCode : Int

/-- The substring variant's `New`: the empty-list checks are commented
out in the source, so any rule set (also an empty one) is accepted;
compilation still fails on the first bad regex. -/
def New (compile : String → Option (String → Bool)) (config : Config) :
    Except String traefik_block_regex_urls :=
  match compileRegexps compile config.regex with
  | .error e => .error e
  | .ok regexps =>
    .ok { regexps := regexps,
          matchStrings := config.matchStrings,
          statusCode := config.statusCode }

/-- The substring variant's `ServeHTTP`: the `matchStrings` containment
loop first (early return on the first hit), then the regex loop, then
forward. -/
def ServeHTTP (blockUrls : traefik_block_regex_urls) (request : Request) : Decision :=
  let fullUrl := fullUrlOf request
  if blockUrls.matchStrings.any (fun str => strContains fullUrl str) then
    .Blocked blockUrls.statusCode
  else if blockUrls.regexps.any (fun regex => regex fullUrl) then
    .Blocked blockUrls.statusCode
  else
    .Forwarded

end VSub

/-! ## Exact-match variant (`exactMatch`, `slices.Contains`) -/

namespace VExact

/-- The `Config` struct of the exact-match variant. -/
structure Config where
  regex : List String
  exactMatch : List String
  silentStartUp : Bool
  statusCode : Int
deriving DecidableEq

/-- The middleware struct of the exact-match variant. -/
structure traefik_block_regex_urls where
  regexps : List (String → Bool)
  exactMatch : List String
  statusCode : Int

/-- The exact-match variant's `New`: no emptiness check; compilation
fails on the first bad regex. -/
def New (compile : String → Option (String → Bool)) (config : Config) :
    Except String traefik_block_regex_urls :=
  match compileRegexps compile config.regex with
  | .error e => .error e
  | .ok regexps =>
    .ok { regexps := regexps,
          exactMatch := config.exactMatch,
          statusCode := config.statusCode }

/-- The exact-match variant's `ServeHTTP`: `slices.Contains` equality
test against the full URL first, then the regex loop, then forward. -/
def ServeHTTP (blockUrls : traefik_block_regex_urls) (request : Request) : Decision :=
  let fullUrl := fullUrlOf request
  if blockUrls.exactMatch.contains fullUrl then
    .Blocked blockUrls.statusCode
  else if blockUrls.regexps.any (fun regex => regex fullUrl) then
    .Blocked blockUrls.statusCode
  else
    .Forwarded

end VExact

/-! ## Helper lemmas -/

/-- The accumulator loop returns `true` exactly when every collected
address is private. -/
theorem isPrivateIpLoop_true_iff (blocks : List Net.IPNet) :
    ∀ ips : List Net.IP,
      isPrivateIpLoop blocks ips = true ↔ ∀ ip ∈ ips, IsPrivateIP ip blocks = true := by
  intro ips
  induction ips with
  | nil => simp [isPrivateIpLoop]
  | cons ip rest ih =>
    simp [isPrivateIpLoop, Bool.and_eq_true, ih]

/-- The accumulator loop returns `false` exactly when some collected
address is not private. -/
theorem isPrivateIpLoop_false_iff (blocks : List Net.IPNet) :
    ∀ ips : List Net.IP,
      isPrivateIpLoop blocks ips = false ↔ ∃ ip ∈ ips, IsPrivateIP ip blocks = false := by
  intro ips
  induction ips with
  | nil => simp [isPrivateIpLoop]
  | cons ip rest ih =>
    cases h : IsPrivateIP ip blocks <;> simp [isPrivateIpLoop, h, ih]

/-- When the exemption is enabled and every collected address is private,
the regex loop always falls through to `Forwarded`, whatever the rules. -/
theorem serveLoop_forwarded_of_allPrivate (blockUrls : V1.traefik_block_regex_urls)
    (request : Request) (fullUrl : String)
    (hAllow : blockUrls.allowLocalRequests = true)
    (hPriv : isPrivateIpLoop blockUrls.privateIPRanges (CollectRemoteIP request).1 = true) :
    ∀ regexps, V1.serveLoop blockUrls request fullUrl regexps = .Forwarded := by
  intro regexps
  induction regexps with
  | nil => rfl
  | cons regex rest ih =>
    cases h : regex fullUrl <;> simp [V1.serveLoop, h, hAllow, hPriv, ih]

/-- When no rule matches, the regex loop falls through to `Forwarded`. -/
theorem serveLoop_forwarded_of_no_match (blockUrls : V1.traefik_block_regex_urls)
    (request : Request) (fullUrl : String) :
    ∀ regexps, (∀ regex ∈ regexps, regex fullUrl = false) →
      V1.serveLoop blockUrls request fullUrl regexps = .Forwarded := by
  intro regexps
  induction regexps with
  | nil => intro _; rfl
  | cons regex rest ih =>
    intro h
    have hHead : regex fullUrl = false := h regex (List.mem_cons_self _ _)
    simp only [V1.serveLoop, hHead, Bool.false_eq_true, if_false]
    exact ih fun r hr => h r (List.mem_cons_of_mem _ hr)

/-- When some rule matches and either the exemption is off or some
collected address is not private, the regex loop blocks with the
configured status code. -/
theorem serveLoop_blocked_of_match (blockUrls : V1.traefik_block_regex_urls)
    (request : Request) (fullUrl : String)
    (hDeny : blockUrls.allowLocalRequests = false ∨
      isPrivateIpLoop blockUrls.privateIPRanges (CollectRemoteIP request).1 = false) :
    ∀ regexps, (∃ regex ∈ regexps, regex fullUrl = true) →
      V1.serveLoop blockUrls request fullUrl regexps = .Blocked blockUrls.statusCode := by
  intro regexps
  induction regexps with
  | nil => intro h; simp at h
  | cons regex rest ih =>
    intro hMatch
    cases hHead : regex fullUrl with
    | true =>
      cases hA : blockUrls.allowLocalRequests with
      | false => simp [V1.serveLoop, hHead, hA]
      | true =>
        have hPriv : isPrivateIpLoop blockUrls.privateIPRanges (CollectRemoteIP request).1 = false := by
          rcases hDeny with h | h
          · rw [hA] at h; cases h
          · exact h
        simp [V1.serveLoop, hHead, hA, hPriv]
    | false =>
      have hRest : ∃ r ∈ rest, r fullUrl = true := by
        rcases hMatch with ⟨r, hr, hru⟩
        rcases List.mem_cons.mp hr with rfl | hmem
        · rw [hHead] at hru; cases hru
        · exact ⟨r, hmem, hru⟩
      simp only [V1.serveLoop, hHead, Bool.false_eq_true, if_false]
      exact ih hRest

/-- Compilation fails (with the first offending pattern's message) as
soon as some pattern does not compile. -/
theorem compileRegexps_error_of_bad (compile : String → Option (String → Bool)) :
    ∀ patterns, (∃ p ∈ patterns, compile p = none) →
      ∃ msg, compileRegexps compile patterns = .error msg := by
  intro patterns
  induction patterns with
  | nil => intro h; simp at h
  | cons p rest ih =>
    intro h
    cases hc : compile p with
    | none => exact ⟨"error compiling regex " ++ p, by simp [compileRegexps, hc]⟩
    | some c =>
      have hr : ∃ q ∈ rest, compile q = none := by
        rcases h with ⟨q, hq, hqn⟩
        rcases List.mem_cons.mp hq with rfl | hmem
        · rw [hc] at hqn; cases hqn
        · exact ⟨q, hmem, hqn⟩
      rcases ih hr with ⟨msg, hmsg⟩
      exact ⟨msg, by simp [compileRegexps, hc, hmsg]⟩

/-- One parsing loop collects, after the already-collected prefix, the
parses of the longest all-valid token prefix, and errors exactly when
some token fails to parse. -/
theorem parseLoop_eq :
    ∀ (tokens : List String) (acc : List Net.IP),
      parseLoop tokens acc =
        (acc ++ (tokens.takeWhile fun t => (ParseIP t).isSome).filterMap ParseIP,
         !tokens.all fun t => (ParseIP t).isSome) := by
  intro tokens
  induction tokens with
  | nil => intro acc; simp [parseLoop]
  | cons t rest ih =>
    intro acc
    cases h : ParseIP t with
    | none => simp [parseLoop, h, List.takeWhile_cons, List.all_cons]
    | some ip =>
      simp [parseLoop, h, ih, List.takeWhile_cons, List.all_cons, List.filterMap_cons]

/-- Appending past an all-valid first list lets `takeWhile` continue into
the second list. -/
theorem takeWhile_append_of_all {α : Type} {p : α → Bool} :
    ∀ l₁ l₂ : List α, l₁.all p = true →
      (l₁ ++ l₂).takeWhile p = l₁ ++ l₂.takeWhile p := by
  intro l₁
  induction l₁ with
  | nil => intro l₂ _; rfl
  | cons a l ih =>
    intro l₂ h
    rw [List.all_cons, Bool.and_eq_true] at h
    simp [List.takeWhile_cons, h.1, ih l₂ h.2]

/-- When the first list already contains an invalid element, `takeWhile`
over the concatenation never reaches the second list. -/
theorem takeWhile_append_of_not_all {α : Type} {p : α → Bool} :
    ∀ l₁ l₂ : List α, l₁.all p = false →
      (l₁ ++ l₂).takeWhile p = l₁.takeWhile p := by
  intro l₁
  induction l₁ with
  | nil => intro l₂ h; simp at h
  | cons a l ih =>
    intro l₂ h
    rw [List.all_cons] at h
    cases ha : p a with
    | false => simp [List.takeWhile_cons, ha]
    | true =>
      rw [ha, Bool.true_and] at h
      simp [List.takeWhile_cons, ha, ih l₂ h]

/-- `takeWhile` keeps an all-valid list whole. -/
theorem takeWhile_eq_self_of_all {α : Type} {p : α → Bool} :
    ∀ l : List α, l.all p = true → l.takeWhile p = l := by
  intro l
  induction l with
  | nil => intro _; rfl
  | cons a t ih =>
    intro h
    rw [List.all_cons, Bool.and_eq_true] at h
    simp [List.takeWhile_cons, h.1, ih h.2]

/-- A `List.contains` that is `true` certifies membership. -/
theorem mem_of_contains_eq_true {l : List String} {a : String}
    (h : l.contains a = true) : a ∈ l :=
  List.mem_of_elem_eq_true h

/-- Characterization of `CollectRemoteIP`: over the `X-Forwarded-For`
tokens followed by the `X-Real-IP` tokens, it returns the parses of the
longest all-valid prefix (so everything after the first unparseable token,
including the whole second header on a first-header failure, is unread)
and flags an error exactly when some token fails to parse. -/
theorem CollectRemoteIP_eq (request : Request) :
    CollectRemoteIP request =
      (((fieldsFunc request.xForwardedFor ++ fieldsFunc request.xRealIP).takeWhile
          fun t => (ParseIP t).isSome).filterMap ParseIP,
       !(fieldsFunc request.xForwardedFor ++ fieldsFunc request.xRealIP).all
          fun t => (ParseIP t).isSome) := by
  cases hall : (fieldsFunc request.xForwardedFor).all (fun t => (ParseIP t).isSome) with
  | false =>
    rw [takeWhile_append_of_not_all _ _ hall]
    simp [CollectRemoteIP, parseLoop_eq, hall, List.all_append]
  | true =>
    rw [takeWhile_append_of_all _ _ hall]
    simp [CollectRemoteIP, parseLoop_eq, hall, List.all_append, List.filterMap_append,
      takeWhile_eq_self_of_all _ hall]

/-! ## Fixtures for witnesses and counterexamples -/

/-- A compiled-regex stand-in: matches every URL containing `/wp`
(the behaviour of compiling the unanchored pattern `/wp`). -/
def regexWp : String → Bool := fun fullUrl => strContains fullUrl "/wp"

/-- A `regexp.Compile` stand-in for construction fixtures: the pattern
`"("` (unbalanced parenthesis) fails to compile, everything else
compiles to the `/wp` matcher. -/
def compileStub : String → Option (String → Bool) :=
  fun pattern => if pattern = "(" then none else some regexWp

/-! ## Claims -/

/-- C1: in the IP-exemption variant with `allowLocalRequests` true, for a
request whose composed URL matches at least one configured regex,
`ServeHTTP` forwards to the next handler when every address collected
from `X-Forwarded-For` and `X-Real-IP` is private (loopback, link-local
unicast/multicast, or inside the hardcoded reserved CIDR table), and
writes the configured status code without invoking the next handler when
at least one collected address is not private. -/
theorem C1_ip_exemption_decides_matched_requests
    (blockUrls : V1.traefik_block_regex_urls) (request : Request)
    (hAllow : blockUrls.allowLocalRequests = true)
    (hMatch : ∃ regex ∈ blockUrls.regexps, regex (fullUrlOf request) = true) :
    ((∀ ip ∈ (CollectRemoteIP request).1, IsPrivateIP ip blockUrls.privateIPRanges = true) →
        V1.ServeHTTP blockUrls request = .Forwarded) ∧
    ((∃ ip ∈ (CollectRemoteIP request).1, IsPrivateIP ip blockUrls.privateIPRanges = false) →
        V1.ServeHTTP blockUrls request = .Blocked blockUrls.statusCode) := by
  constructor
  · intro hPriv
    exact serveLoop_forwarded_of_allPrivate blockUrls request (fullUrlOf request) hAllow
      ((isPrivateIpLoop_true_iff _ _).mpr hPriv) _
  · intro hPub
    exact serveLoop_blocked_of_match blockUrls request (fullUrlOf request)
      (Or.inr ((isPrivateIpLoop_false_iff _ _).mpr hPub)) _ hMatch

/-- A middleware instance of the primary variant used by C1's witness. -/
def mwC1 : V1.traefik_block_regex_urls :=
  { allowLocalRequests := true, privateIPRanges := InitializePrivateIPBlocks,
    regexps := [regexWp], statusCode := 404 }

/-- A matching request whose only forwarded address is private. -/
def reqC1 : Request :=
  { host := "localhost", requestURI := "/wp-login", xForwardedFor := "", xRealIP := "192.168.1.1" }

/-- Witness for C1: the private `X-Real-IP: 192.168.1.1` exempts the
matching request `/wp-login`. -/
theorem C1_witness : V1.ServeHTTP mwC1 reqC1 = .Forwarded :=
  (C1_ip_exemption_decides_matched_requests mwC1 reqC1 rfl
    ⟨regexWp, List.mem_singleton.mpr rfl, by decide⟩).1 (by decide)

/-- C2: in every variant, a request whose composed URL matches none of
the configured exact/substring strings and none of the regexes is
forwarded: the next handler is invoked exactly once with the unmodified
request and no status code is written (this is the meaning of
`Decision.Forwarded`). -/
theorem C2_no_match_forwards :
    (∀ (blockUrls : V1.traefik_block_regex_urls) (request : Request),
        (∀ regex ∈ blockUrls.regexps, regex (fullUrlOf request) = false) →
        V1.ServeHTTP blockUrls request = .Forwarded) ∧
    (∀ (blockUrls : VSub.traefik_block_regex_urls) (request : Request),
        (∀ str ∈ blockUrls.matchStrings, strContains (fullUrlOf request) str = false) →
        (∀ regex ∈ blockUrls.regexps, regex (fullUrlOf request) = false) →
        VSub.ServeHTTP blockUrls request = .Forwarded) ∧
    (∀ (blockUrls : VExact.traefik_block_regex_urls) (request : Request),
        fullUrlOf request ∉ blockUrls.exactMatch →
        (∀ regex ∈ blockUrls.regexps, regex (fullUrlOf request) = false) →
        VExact.ServeHTTP blockUrls request = .Forwarded) := by
  refine ⟨?_, ?_, ?_⟩
  · intro blockUrls request h
    exact serveLoop_forwarded_of_no_match blockUrls request (fullUrlOf request) _ h
  · intro blockUrls request hs hr
    have h1 : (blockUrls.matchStrings.any fun str => strContains (fullUrlOf request) str) = false := by
      rw [List.any_eq_false]
      intro s hmem
      simp [hs s hmem]
    have h2 : (blockUrls.regexps.any fun regex => regex (fullUrlOf request)) = false := by
      rw [List.any_eq_false]
      intro r hmem
      simp [hr r hmem]
    simp [VSub.ServeHTTP, h1, h2]
  · intro blockUrls request hmem hr
    have h1 : blockUrls.exactMatch.contains (fullUrlOf request) = false := by
      cases hc : blockUrls.exactMatch.contains (fullUrlOf request) with
      | false => rfl
      | true => exact absurd (mem_of_contains_eq_true hc) hmem
    have h2 : (blockUrls.regexps.any fun regex => regex (fullUrlOf request)) = false := by
      rw [List.any_eq_false]
      intro r hmem'
      simp [hr r hmem']
    simp [VExact.ServeHTTP, h1, h2, hmem]

/-- A middleware instance of the primary variant used by C2's witness. -/
def mwC2 : V1.traefik_block_regex_urls :=
  { allowLocalRequests := true, privateIPRanges := InitializePrivateIPBlocks,
    regexps := [regexWp], statusCode := 404 }

/-- A non-matching request with a public forwarded address. -/
def reqC2 : Request :=
  { host := "localhost", requestURI := "/index.html", xForwardedFor := "2.56.20.0", xRealIP := "" }

/-- Witness for C2: `/index.html` matches no rule and is forwarded. -/
theorem C2_witness : V1.ServeHTTP mwC2 reqC2 = .Forwarded :=
  C2_no_match_forwards.1 mwC2 reqC2 fun r hr => by
    rw [List.mem_singleton.mp hr]; decide

/-- C3: in the primary variant with `allowLocalRequests` false, every
request whose composed URL matches at least one configured regex is
blocked with the configured status code — whatever the forwarding
headers contain — and the next handler is never invoked. -/
theorem C3_disabled_exemption_always_blocks
    (blockUrls : V1.traefik_block_regex_urls) (request : Request)
    (hAllow : blockUrls.allowLocalRequests = false)
    (hMatch : ∃ regex ∈ blockUrls.regexps, regex (fullUrlOf request) = true) :
    V1.ServeHTTP blockUrls request = .Blocked blockUrls.statusCode :=
  serveLoop_blocked_of_match blockUrls request (fullUrlOf request)
    (Or.inl hAllow) _ hMatch

/-- A middleware instance with the exemption disabled. -/
def mwC3 : V1.traefik_block_regex_urls :=
  { allowLocalRequests := false, privateIPRanges := InitializePrivateIPBlocks,
    regexps := [regexWp], statusCode := 404 }

/-- A matching request whose forwarded address is private — blocked all
the same, because the exemption is off. -/
def reqC3 : Request :=
  { host := "localhost", requestURI := "/wp-login", xForwardedFor := "", xRealIP := "192.168.1.1" }

/-- Witness for C3: with `allowLocalRequests` false even the private
`192.168.1.1` cannot exempt the matching request. -/
theorem C3_witness : V1.ServeHTTP mwC3 reqC3 = .Blocked 404 :=
  C3_disabled_exemption_always_blocks mwC3 reqC3 rfl
    ⟨regexWp, List.mem_singleton.mpr rfl, by decide⟩

/-- A middleware instance of the primary variant used by C4's
counterexample: exemption enabled, one matching rule. -/
def mwC4 : V1.traefik_block_regex_urls :=
  { allowLocalRequests := true, privateIPRanges := InitializePrivateIPBlocks,
    regexps := [regexWp], statusCode := 404 }

/-- A matching request whose only `X-Forwarded-For` token does not parse
as an IP address. -/
def reqC4 : Request :=
  { host := "localhost", requestURI := "/wp-login", xForwardedFor := "not-an-ip", xRealIP := "" }

/-- Counterexample for C4: the claim says a parse failure makes the
caller discard the partial list and enforce the block on every matching
request.  Here the composed URL `localhost/wp-login` matches the rule and
extraction fails (error flag set, empty partial list), yet `ServeHTTP`
forwards the request instead of blocking it: the empty partial list
passes the all-private check vacuously. -/
theorem C4_counterexample :
    regexWp (fullUrlOf reqC4) = true ∧
    CollectRemoteIP reqC4 = ([], true) ∧
    V1.ServeHTTP mwC4 reqC4 = .Forwarded := by
  refine ⟨by decide, by decide, ?_⟩
  rfl

/-- C4 (amended): when a token fails to parse, extraction stops with an
error but the partially collected addresses are not discarded —
`ServeHTTP` applies the all-private exemption to that partial list.  With
`allowLocalRequests` false a matching request is blocked; with it true, a
matching request is blocked exactly when the partial list contains a
non-private address (in particular, a matching request whose tokens all
fail to parse is forwarded).  Request handling is total — it never
crashes. -/
theorem C4_parse_failure_keeps_partial_list
    (blockUrls : V1.traefik_block_regex_urls) (request : Request)
    (hErr : (CollectRemoteIP request).2 = true)
    (hMatch : ∃ regex ∈ blockUrls.regexps, regex (fullUrlOf request) = true) :
    (blockUrls.allowLocalRequests = false →
      V1.ServeHTTP blockUrls request = .Blocked blockUrls.statusCode) ∧
    (blockUrls.allowLocalRequests = true →
      (V1.ServeHTTP blockUrls request = .Blocked blockUrls.statusCode ↔
        ∃ ip ∈ (CollectRemoteIP request).1, IsPrivateIP ip blockUrls.privateIPRanges = false)) := by
  constructor
  · intro hAllow
    exact serveLoop_blocked_of_match blockUrls request (fullUrlOf request)
      (Or.inl hAllow) _ hMatch
  · intro hAllow
    constructor
    · intro hBlocked
      by_contra hNone
      have hPriv : ∀ ip ∈ (CollectRemoteIP request).1,
          IsPrivateIP ip blockUrls.privateIPRanges = true := by
        intro ip hip
        cases hp : IsPrivateIP ip blockUrls.privateIPRanges with
        | false => exact absurd ⟨ip, hip, hp⟩ hNone
        | true => rfl
      have hFwd : V1.ServeHTTP blockUrls request = .Forwarded :=
        serveLoop_forwarded_of_allPrivate blockUrls request (fullUrlOf request) hAllow
          ((isPrivateIpLoop_true_iff _ _).mpr hPriv) _
      rw [hFwd] at hBlocked
      cases hBlocked
    · intro hPub
      exact serveLoop_blocked_of_match blockUrls request (fullUrlOf request)
        (Or.inr ((isPrivateIpLoop_false_iff _ _).mpr hPub)) _ hMatch

/-- A matching request with a public address parsed before the broken
token: the partial list `[2.56.20.0]` is what the check runs on. -/
def reqC4w : Request :=
  { host := "localhost", requestURI := "/wp-login",
    xForwardedFor := "2.56.20.0,not-an-ip", xRealIP := "" }

/-- Witness for the amended C4: extraction fails after collecting the
public `2.56.20.0`, and the block is enforced because that partial list
contains a non-private address. -/
theorem C4_witness : V1.ServeHTTP mwC4 reqC4w = .Blocked 404 :=
  ((C4_parse_failure_keeps_partial_list mwC4 reqC4w (by decide)
      ⟨regexWp, List.mem_singleton.mpr rfl, by decide⟩).2 rfl).mpr
    ⟨Net.v4InV6 2 56 20 0, by decide, by decide⟩

/-- C5: with the exemption enabled, a matching request carrying no
forwarding headers (both `Header.Get` results empty) yields zero
extracted addresses, the all-private accumulator stays vacuously `true`,
and the request is forwarded rather than blocked. -/
theorem C5_empty_headers_vacuously_exempt
    (blockUrls : V1.traefik_block_regex_urls) (request : Request)
    (hAllow : blockUrls.allowLocalRequests = true)
    (hMatch : ∃ regex ∈ blockUrls.regexps, regex (fullUrlOf request) = true)
    (hXff : request.xForwardedFor = "") (hXri : request.xRealIP = "") :
    (CollectRemoteIP request).1 = [] ∧
    isPrivateIpLoop blockUrls.privateIPRanges (CollectRemoteIP request).1 = true ∧
    V1.ServeHTTP blockUrls request = .Forwarded := by
  have hc : CollectRemoteIP request = ([], false) := by
    have h1 : fieldsFunc request.xForwardedFor = [] := by rw [hXff]; rfl
    have h2 : fieldsFunc request.xRealIP = [] := by rw [hXri]; rfl
    simp [CollectRemoteIP, h1, h2, parseLoop]
  have hPriv : isPrivateIpLoop blockUrls.privateIPRanges (CollectRemoteIP request).1 = true := by
    rw [hc]; rfl
  exact ⟨by rw [hc], hPriv,
    serveLoop_forwarded_of_allPrivate blockUrls request (fullUrlOf request) hAllow hPriv _⟩

/-- A middleware instance of the primary variant used by C5's witness. -/
def mwC5 : V1.traefik_block_regex_urls :=
  { allowLocalRequests := true, privateIPRanges := InitializePrivateIPBlocks,
    regexps := [regexWp], statusCode := 404 }

/-- A matching request with both forwarding headers absent. -/
def reqC5 : Request :=
  { host := "localhost", requestURI := "/wp-login", xForwardedFor := "", xRealIP := "" }

/-- Witness for C5: no forwarding headers, matching URL, forwarded. -/
theorem C5_witness : V1.ServeHTTP mwC5 reqC5 = .Forwarded :=
  (C5_empty_headers_vacuously_exempt mwC5 reqC5 rfl
    ⟨regexWp, List.mem_singleton.mpr rfl, by decide⟩ rfl rfl).2.2

/-- C6: in every variant, a configuration containing a regex string that
does not compile makes `New` return an error, so no middleware instance
— in particular none holding a partial rule set — is ever constructed. -/
theorem C6_bad_regex_fails_construction :
    (∀ (compile : String → Option (String → Bool)) (config : V1.Config),
        (∃ p ∈ config.regex, compile p = none) →
        ∃ msg, V1.New compile config = .error msg) ∧
    (∀ (compile : String → Option (String → Bool)) (config : VSub.Config),
        (∃ p ∈ config.regex, compile p = none) →
        ∃ msg, VSub.New compile config = .error msg) ∧
    (∀ (compile : String → Option (String → Bool)) (config : VExact.Config),
        (∃ p ∈ config.regex, compile p = none) →
        ∃ msg, VExact.New compile config = .error msg) := by
  refine ⟨?_, ?_, ?_⟩
  · intro compile config h
    cases hlen : config.regex.length == 0 with
    | true => exact ⟨"the regex list is empty", by simp [V1.New, hlen]⟩
    | false =>
      rcases compileRegexps_error_of_bad compile config.regex h with ⟨msg, hmsg⟩
      exact ⟨msg, by simp [V1.New, hlen, hmsg]⟩
  · intro compile config h
    rcases compileRegexps_error_of_bad compile config.regex h with ⟨msg, hmsg⟩
    exact ⟨msg, by simp [VSub.New, hmsg]⟩
  · intro compile config h
    rcases compileRegexps_error_of_bad compile config.regex h with ⟨msg, hmsg⟩
    exact ⟨msg, by simp [VExact.New, hmsg]⟩

/-- A primary-variant configuration whose second pattern is the
non-compiling `"("`. -/
def cfgC6 : V1.Config :=
  { allowLocalRequests := true, regex := ["/wp", "("], silentStartUp := true, statusCode := 404 }

/-- Witness for C6: with the `"("` pattern failing to compile, `New`
returns an error. -/
theorem C6_witness : ∃ msg, V1.New compileStub cfgC6 = .error msg :=
  C6_bad_regex_fails_construction.1 compileStub cfgC6
    ⟨"(", by decide, by simp [compileStub]⟩

/-- C7: in the substring and exact-match variants, the string rules are
tested against the composed URL before any regex: a request whose URL
contains (respectively equals) a configured match string is blocked with
the configured status code whatever the regex list is — the decision is
independent of the regexes, which are never evaluated. -/
theorem C7_string_rules_win_over_regexps :
    (∀ (blockUrls : VSub.traefik_block_regex_urls) (request : Request),
        (∃ str ∈ blockUrls.matchStrings, strContains (fullUrlOf request) str = true) →
        ∀ regexps, VSub.ServeHTTP { blockUrls with regexps := regexps } request =
          .Blocked blockUrls.statusCode) ∧
    (∀ (blockUrls : VExact.traefik_block_regex_urls) (request : Request),
        fullUrlOf request ∈ blockUrls.exactMatch →
        ∀ regexps, VExact.ServeHTTP { blockUrls with regexps := regexps } request =
          .Blocked blockUrls.statusCode) := by
  constructor
  · intro blockUrls request h regexps
    have h1 : (blockUrls.matchStrings.any fun str => strContains (fullUrlOf request) str) = true := by
      rw [List.any_eq_true]
      rcases h with ⟨str, hmem, hstr⟩
      exact ⟨str, hmem, hstr⟩
    simp [VSub.ServeHTTP, h1]
  · intro blockUrls request h regexps
    have h1 : blockUrls.exactMatch.contains (fullUrlOf request) = true :=
      List.elem_eq_true_of_mem h
    simp [VExact.ServeHTTP, h1, h]

/-- A substring-variant middleware instance blocking on `something`. -/
def mwC7 : VSub.traefik_block_regex_urls :=
  { regexps := [], matchStrings := ["something"], statusCode := 403 }

/-- A request whose composed URL contains `something` in the middle. -/
def reqC7 : Request :=
  { host := "example.com", requestURI := "/abc/something/def", xForwardedFor := "", xRealIP := "" }

/-- Witness for C7: the containment hit blocks even with a regex list
that matches nothing. -/
theorem C7_witness :
    VSub.ServeHTTP { mwC7 with regexps := [fun _ => false] } reqC7 = .Blocked 403 :=
  C7_string_rules_win_over_regexps.1 mwC7 reqC7
    ⟨"something", List.mem_singleton.mpr rfl, by decide⟩ [fun _ => false]

/-- Counterexample for C8: the claim says a middleware instance can be
constructed from a configuration with no regex patterns and no match
strings.  In the primary variant, `New` rejects exactly that
configuration with the error `the regex list is empty`, so no instance
is constructed there. -/
theorem C8_counterexample :
    V1.New compileStub
      { allowLocalRequests := true, regex := [], silentStartUp := true, statusCode := 403 } =
    .error "the regex list is empty" := rfl

/-- C8 (amended): in the substring and exact-match variants an empty rule
set constructs successfully and the resulting `ServeHTTP` forwards every
request; the primary variant instead refuses construction when the regex
list is empty (see the counterexample). -/
theorem C8_empty_rules_forward_everything
    (compile : String → Option (String → Bool)) (silent : Bool) (sc : Int) :
    (∃ blockUrls,
        VSub.New compile
          { regex := [], matchStrings := [], silentStartUp := silent, statusCode := sc } =
          .ok blockUrls ∧
        ∀ request, VSub.ServeHTTP blockUrls request = .Forwarded) ∧
    (∃ blockUrls,
        VExact.New compile
          { regex := [], exactMatch := [], silentStartUp := silent, statusCode := sc } =
          .ok blockUrls ∧
        ∀ request, VExact.ServeHTTP blockUrls request = .Forwarded) :=
  ⟨⟨{ regexps := [], matchStrings := [], statusCode := sc }, rfl, fun _ => rfl⟩,
   ⟨{ regexps := [], exactMatch := [], statusCode := sc }, rfl, fun _ => rfl⟩⟩

/-- A request whose `X-Forwarded-For` is two valid IP literals separated
by a comma and a space — the usual proxy formatting. -/
def reqC9 : Request :=
  { host := "localhost", requestURI := "/wp-login",
    xForwardedFor := "1.2.3.4, 5.6.7.8", xRealIP := "" }

/-- Counterexample for C9: both literals are valid IP addresses, yet
splitting on commas does not trim the space, ` 5.6.7.8` fails to parse,
and extraction errors out after the first address instead of succeeding
with both. -/
theorem C9_counterexample :
    (ParseIP "1.2.3.4").isSome = true ∧
    (ParseIP "5.6.7.8").isSome = true ∧
    ParseIP " 5.6.7.8" = none ∧
    CollectRemoteIP reqC9 = ([Net.v4InV6 1 2 3 4], true) := by decide

/-- C9 (amended): extraction reads `X-Forwarded-For` and then `X-Real-IP`
in that fixed order and splits each value on commas, but nothing is
trimmed: a token is parsed exactly as written, so surrounding whitespace
makes it invalid.  When every comma-separated token of both headers is a
valid IP literal as written, extraction succeeds and returns exactly
those addresses in order. -/
theorem C9_untrimmed_tokens_parse_in_order (request : Request)
    (h : ∀ t ∈ fieldsFunc request.xForwardedFor ++ fieldsFunc request.xRealIP,
      (ParseIP t).isSome = true) :
    CollectRemoteIP request =
      ((fieldsFunc request.xForwardedFor ++ fieldsFunc request.xRealIP).filterMap ParseIP,
       false) := by
  have hall : ((fieldsFunc request.xForwardedFor ++ fieldsFunc request.xRealIP).all
      fun t => (ParseIP t).isSome) = true :=
    List.all_eq_true.mpr h
  rw [CollectRemoteIP_eq, takeWhile_eq_self_of_all _ hall, hall]
  rfl

/-- A request with well-formed (unpadded) comma-separated headers. -/
def reqC9w : Request :=
  { host := "localhost", requestURI := "/wp-login",
    xForwardedFor := "1.2.3.4,10.0.0.1", xRealIP := "127.0.0.1" }

/-- Witness for the amended C9: three valid tokens, extracted in header
and token order. -/
theorem C9_witness :
    CollectRemoteIP reqC9w =
      ([Net.v4InV6 1 2 3 4, Net.v4InV6 10 0 0 1, Net.v4InV6 127 0 0 1], false) := by
  have h := C9_untrimmed_tokens_parse_in_order reqC9w (by decide)
  rw [h]
  decide

/-- C10: `CollectRemoteIP` returns the parses of the `X-Forwarded-For`
tokens followed by those of the `X-Real-IP` tokens; it stops at the first
token that fails to parse, returning the partially collected list (the
parses of the longest all-valid token prefix — later tokens, and on an
`X-Forwarded-For` failure the whole `X-Real-IP` header, are unread)
together with the error flag; and on a matching request with the
exemption enabled, `ServeHTTP` applies the all-private check to exactly
that partial list rather than discarding it. -/
theorem C10_partial_list_returned_and_used :
    (∀ request : Request,
        CollectRemoteIP request =
          (((fieldsFunc request.xForwardedFor ++ fieldsFunc request.xRealIP).takeWhile
              fun t => (ParseIP t).isSome).filterMap ParseIP,
           !(fieldsFunc request.xForwardedFor ++ fieldsFunc request.xRealIP).all
              fun t => (ParseIP t).isSome)) ∧
    (∀ (blockUrls : V1.traefik_block_regex_urls) (request : Request),
        (CollectRemoteIP request).2 = true →
        blockUrls.allowLocalRequests = true →
        (∃ regex ∈ blockUrls.regexps, regex (fullUrlOf request) = true) →
        (V1.ServeHTTP blockUrls request = .Forwarded ↔
          ∀ ip ∈ (CollectRemoteIP request).1,
            IsPrivateIP ip blockUrls.privateIPRanges = true)) := by
  constructor
  · exact CollectRemoteIP_eq
  · intro blockUrls request _ hAllow hMatch
    constructor
    · intro hFwd ip hip
      cases hp : IsPrivateIP ip blockUrls.privateIPRanges with
      | true => rfl
      | false =>
        have hBlocked := serveLoop_blocked_of_match blockUrls request (fullUrlOf request)
          (Or.inr ((isPrivateIpLoop_false_iff _ _).mpr ⟨ip, hip, hp⟩)) _ hMatch
        rw [V1.ServeHTTP] at hFwd
        rw [hBlocked] at hFwd
        cases hFwd
    · intro hPriv
      exact serveLoop_forwarded_of_allPrivate blockUrls request (fullUrlOf request) hAllow
        ((isPrivateIpLoop_true_iff _ _).mpr hPriv) _

/-- A middleware instance of the primary variant used by C10's witness. -/
def mwC10 : V1.traefik_block_regex_urls :=
  { allowLocalRequests := true, privateIPRanges := InitializePrivateIPBlocks,
    regexps := [regexWp], statusCode := 404 }

/-- A matching request whose headers yield the private `127.0.0.1` and
then an unparseable token. -/
def reqC10 : Request :=
  { host := "localhost", requestURI := "/wp-login",
    xForwardedFor := "127.0.0.1,oops", xRealIP := "2.56.20.0" }

/-- Witness for C10: extraction fails after `127.0.0.1` (never reading
the public `X-Real-IP`), and the all-private check on the partial list
`[127.0.0.1]` exempts the matching request. -/
theorem C10_witness : V1.ServeHTTP mwC10 reqC10 = .Forwarded :=
  (C10_partial_list_returned_and_used.2 mwC10 reqC10 (by decide) rfl
    ⟨regexWp, List.mem_singleton.mpr rfl, by decide⟩).mpr (by decide)
